import Mathlib

/-!
Shallow embedding of the scheme-rs evaluator (src/ast.rs, src/env.rs,
src/builtins.rs, src/eval.rs).

Modelling conventions:
- Rust `Rc<Env>` with interior mutability becomes an explicit store: a list
  of frames, addressed by `Nat` indices.  `Env::new`/`Env::extend` append a
  fresh frame at the end of the store, so a frame's parent index is always
  smaller than its own index for every store the evaluator can build.
- `i64` is modelled as `Int` together with explicit range checks in the
  arithmetic builtins: every step of their folds checks that the result
  stays in `[i64Min, i64Max]` and otherwise yields the overflow behaviour
  (`crash`).  Rust `/` on `i64` truncates toward zero, which is `Int.tdiv`.
- Fallible evaluation returns an `Outcome`: `ok`, `err` (Rust `Err`), or
  `crash`, which models a Rust index-out-of-bounds panic.  Recursion is
  fueled; `none` means the fuel ran out (models nontermination).
-/

/-- Expression tree, from `src/ast.rs` (`enum Expr`). -/
inductive Expr where
  | number (n : Int)
  | boolean (b : Bool)
  | string (s : String)
  | symbol (s : String)
  | list (l : List Expr)
deriving BEq

/-- Evaluation errors, from `src/env.rs` (`enum EvalError`). -/
inductive EvalError where
  | undefinedSymbol (s : String)
  | typeError (msg : String)
  | arityMismatch
  | notCallable
  | other (msg : String)
deriving DecidableEq

/-- Tags for the built-in function pointers stored in `Value::Function`.
Every function value the Rust program ever builds is one of the fourteen
builtins registered by `default_env` in `src/env.rs`. -/
inductive BuiltinFn where
  | add | sub | mul | div
  | eq | lt | gt
  | and | or | not
  | list | car | cdr | cons
deriving DecidableEq

/-- Runtime values, from `src/env.rs` (`enum Value`).  A lambda's captured
environment (`env: Rc<Env>`) becomes the index of the captured frame in the
store. -/
inductive Value where
  | number (n : Int)
  | boolean (b : Bool)
  | string (s : String)
  | symbol (s : String)
  | function (f : BuiltinFn)
  | lambda (params : List String) (body : Expr) (env : Nat)
  | list (l : List Value)
deriving BEq

/-- One environment frame, from `src/env.rs` (`struct Env`): an optional
parent (a store index) and the frame's own bindings.  The Rust `HashMap` is
modelled as an association list with in-place-replacing insert; the map's
only observable operation is keyed lookup, which agrees. -/
structure Frame where
  parent : Option Nat
  vars : List (String × Value)

/-- The heap of environment frames.  Rust's `Rc<Env>` graph, flattened. -/
abbrev Store := List Frame

/-- Keyed lookup in a frame's binding list (the `HashMap::get` of the model). -/
def lookupVar : List (String × Value) → String → Option Value
  | [], _ => none
  | (k, v) :: rest, key => if k = key then some v else lookupVar rest key

/-- Keyed insert-or-replace in a frame's binding list (the `HashMap::insert`
of the model). -/
def insertVar : List (String × Value) → String → Value → List (String × Value)
  | [], key, v => [(key, v)]
  | (k, w) :: rest, key, v =>
    if k = key then (key, v) :: rest else (k, w) :: insertVar rest key v

/-- Environment update, from `src/env.rs` `Env::define`: writes the binding
into the frame at index `ref`, leaving every other frame untouched. -/
def envDefine (st : Store) (ref : Nat) (key : String) (v : Value) : Store :=
  match st.get? ref with
  | none => st
  | some fr => st.set ref ⟨fr.parent, insertVar fr.vars key v⟩

/-- Fueled worker for `envGet`.  On every store the evaluator can build,
parent indices strictly decrease, so `ref + 1` units of gas always reach the
root; on an (unreachable) cyclic store the Rust loop would diverge and the
model returns `none`. -/
def envGetAux (st : Store) : Nat → Nat → String → Option Value
  | 0, _, _ => none
  | gas + 1, ref, key =>
    match st.get? ref with
    | none => none
    | some fr =>
      match lookupVar fr.vars key with
      | some v => some v
      | none =>
        match fr.parent with
        | none => none
        | some p => envGetAux st gas p key

/-- Environment lookup, from `src/env.rs` `Env::get`: check the frame's own
bindings, else delegate to the parent chain. -/
def envGet (st : Store) (ref : Nat) (key : String) : Option Value :=
  envGetAux st (ref + 1) ref key

/-- Fueled worker for `frameChain`. -/
def frameChainAux (st : Store) : Nat → Nat → List Frame
  | 0, _ => []
  | gas + 1, ref =>
    match st.get? ref with
    | none => []
    | some fr =>
      fr :: (match fr.parent with
             | none => []
             | some p => frameChainAux st gas p)

/-- Specification-side view of lookup: the list of frames on the walk from
`ref` through its parents. -/
def frameChain (st : Store) (ref : Nat) : List Frame :=
  frameChainAux st (ref + 1) ref

/-- First match over a list of frames: the value bound by the first frame in
the list that binds the key. -/
def firstLookup : List Frame → String → Option Value
  | [], _ => none
  | fr :: rest, key =>
    match lookupVar fr.vars key with
    | some v => some v
    | none => firstLookup rest key

/-! ## Builtins (src/builtins.rs) -/

/-- Result of one evaluation or builtin call: Rust `Ok`, Rust `Err`, or a
Rust panic (`crash`) — an out-of-bounds index in a special-form handler or
an `i64` arithmetic overflow in a builtin. -/
inductive Outcome (α : Type) where
  | ok (v : α)
  | err (e : EvalError)
  | crash

/-- Smallest `i64` value, `-2 ^ 63`. -/
def i64Min : Int := -9223372036854775808

/-- Largest `i64` value, `2 ^ 63 - 1`. -/
def i64Max : Int := 9223372036854775807

/-- Range test for Rust `i64`. -/
def inI64 (n : Int) : Bool := i64Min ≤ n && n ≤ i64Max

/-- Left fold of an `i64` arithmetic operation with Rust's overflow check:
`none` at the first step whose result leaves the `i64` range.  A Rust debug
build panics there and a release build wraps; every `some` result is the
program's result under both profiles. -/
def checkedFold (f : Int → Int → Int) (a : Int) : List Int → Option Int
  | [] => some a
  | x :: rest => if inI64 (f a x) then checkedFold f (f a x) rest else none

/-- Domain of `checkedFold`: every intermediate result of the left fold
stays in the `i64` range. -/
def foldInRange (f : Int → Int → Int) (a : Int) : List Int → Bool
  | [] => true
  | x :: rest => inI64 (f a x) && foldInRange f (f a x) rest

/-- Left fold of checked `i64` division, from the `try_fold` of
`src/builtins.rs` `builtin_div`: a zero divisor is the `Other` error
(checked before dividing), the one overflowing division `i64::MIN / -1`
panics in every build profile, and any other step divides truncating toward
zero (`Int.tdiv`, the Rust `/` on `i64`). -/
def checkedDivFold (a : Int) : List Int → Outcome Int
  | [] => .ok a
  | x :: rest =>
    if x = 0 then .err (.other "Division by zero")
    else if a = i64Min ∧ x = -1 then .crash
    else checkedDivFold (Int.tdiv a x) rest

/-- Conversion of an argument list to integers, from `src/builtins.rs`
`extract_numbers`; the first non-number argument yields the type error.
`builtin_add`, `builtin_sub`, `builtin_mul` and `builtin_div` inline the
identical conversion in the Rust source. -/
def extract_numbers : List Value → Except EvalError (List Int)
  | [] => .ok []
  | .number n :: rest => do
    let ns ← extract_numbers rest
    .ok (n :: ns)
  | _ :: _ => .error (.typeError "Expected number")

/-- Builtin `+`, from `src/builtins.rs` `builtin_add`: the `i64` sum of the
arguments, folded left from `0` with Rust's overflow check at each step. -/
def builtin_add (args : List Value) : Outcome Value :=
  match extract_numbers args with
  | .error e => .err e
  | .ok ns =>
    match checkedFold (· + ·) 0 ns with
    | some s => .ok (.number s)
    | none => .crash

/-- Builtin `-`, from `src/builtins.rs` `builtin_sub`: checked `i64`
left-fold subtraction from the first argument. -/
def builtin_sub (args : List Value) : Outcome Value :=
  match extract_numbers args with
  | .error e => .err e
  | .ok [] => .err (.other "Expected at least one argument")
  | .ok (first :: rest) =>
    match checkedFold (· - ·) first rest with
    | some r => .ok (.number r)
    | none => .crash

/-- Builtin `*`, from `src/builtins.rs` `builtin_mul`: the `i64` product of
the arguments, folded left from `1` with Rust's overflow check. -/
def builtin_mul (args : List Value) : Outcome Value :=
  match extract_numbers args with
  | .error e => .err e
  | .ok ns =>
    match checkedFold (· * ·) 1 ns with
    | some p => .ok (.number p)
    | none => .crash

/-- Builtin `/`, from `src/builtins.rs` `builtin_div`. -/
def builtin_div (args : List Value) : Outcome Value :=
  match extract_numbers args with
  | .error e => .err e
  | .ok [] => .err (.other "Expected at least one argument")
  | .ok (first :: rest) =>
    match checkedDivFold first rest with
    | .ok r => .ok (.number r)
    | .err e => .err e
    | .crash => .crash

/-- Builtin `=`, from `src/builtins.rs` `builtin_eq`.  Rust compares with
`PartialEq` on `Value`; the model uses structural `BEq` (for lambdas Rust
compares the captured environments structurally while the model compares
their store indices — no claim depends on equality of lambdas). -/
def builtin_eq (args : List Value) : Except EvalError Value :=
  match args with
  | [] => .ok (.boolean true)
  | [_] => .ok (.boolean true)
  | first :: rest => .ok (.boolean ((first :: rest).all (· == first)))

/-- Adjacent-pairs check, the model of Rust `nums.windows(2).all(..)`. -/
def windowsAll (r : Int → Int → Bool) : List Int → Bool
  | a :: b :: rest => r a b && windowsAll r (b :: rest)
  | _ => true

/-- Builtin `<`, from `src/builtins.rs` `builtin_lt`. -/
def builtin_lt (args : List Value) : Except EvalError Value := do
  let ns ← extract_numbers args
  .ok (.boolean (windowsAll (· < ·) ns))

/-- Builtin `>`, from `src/builtins.rs` `builtin_gt`. -/
def builtin_gt (args : List Value) : Except EvalError Value := do
  let ns ← extract_numbers args
  .ok (.boolean (windowsAll (· > ·) ns))

/-- Builtin `and`, from `src/builtins.rs` `builtin_and`: scan the evaluated
arguments left to right; return false at the first false, error at the first
non-boolean, true when the scan runs out. -/
def builtin_and : List Value → Except EvalError Value
  | [] => .ok (.boolean true)
  | .boolean false :: _ => .ok (.boolean false)
  | .boolean true :: rest => builtin_and rest
  | _ :: _ => .error (.typeError "Expected boolean")

/-- Builtin `or`, from `src/builtins.rs` `builtin_or`. -/
def builtin_or : List Value → Except EvalError Value
  | [] => .ok (.boolean false)
  | .boolean true :: _ => .ok (.boolean true)
  | .boolean false :: rest => builtin_or rest
  | _ :: _ => .error (.typeError "Expected boolean")

/-- Builtin `not`, from `src/builtins.rs` `builtin_not`. -/
def builtin_not : List Value → Except EvalError Value
  | [.boolean b] => .ok (.boolean (!b))
  | [_] => .error (.typeError "Expected boolean")
  | _ => .error .arityMismatch

/-- Builtin `list`, from `src/builtins.rs` `builtin_list`. -/
def builtin_list (args : List Value) : Except EvalError Value :=
  .ok (.list args)

/-- Builtin `car`, from `src/builtins.rs` `builtin_car`. -/
def builtin_car : List Value → Except EvalError Value
  | [.list (x :: _)] => .ok x
  | _ => .error (.typeError "Expected non-empty list")

/-- Builtin `cdr`, from `src/builtins.rs` `builtin_cdr`. -/
def builtin_cdr : List Value → Except EvalError Value
  | [.list (_ :: rest)] => .ok (.list rest)
  | _ => .error (.typeError "Expected non-empty list")

/-- Builtin `cons`, from `src/builtins.rs` `builtin_cons`. -/
def builtin_cons : List Value → Except EvalError Value
  | [item, .list rest] => .ok (.list (item :: rest))
  | _ => .error (.typeError "Expected value and list")

/-- Conversion of a non-panicking builtin's Rust `Result` into an
`Outcome`. -/
def exceptToOutcome : Except EvalError Value → Outcome Value
  | .ok v => .ok v
  | .error e => .err e

/-- Dispatch of a `Value.function` tag to its builtin, mirroring the Rust
function pointers registered by `default_env` in `src/env.rs`. -/
def applyBuiltin : BuiltinFn → List Value → Outcome Value
  | .add, args => builtin_add args
  | .sub, args => builtin_sub args
  | .mul, args => builtin_mul args
  | .div, args => builtin_div args
  | .eq, args => exceptToOutcome (builtin_eq args)
  | .lt, args => exceptToOutcome (builtin_lt args)
  | .gt, args => exceptToOutcome (builtin_gt args)
  | .and, args => exceptToOutcome (builtin_and args)
  | .or, args => exceptToOutcome (builtin_or args)
  | .not, args => exceptToOutcome (builtin_not args)
  | .list, args => exceptToOutcome (builtin_list args)
  | .car, args => exceptToOutcome (builtin_car args)
  | .cdr, args => exceptToOutcome (builtin_cdr args)
  | .cons, args => exceptToOutcome (builtin_cons args)

/-! ## Evaluator (src/eval.rs) -/

/-- Shorthand for an evaluator at one fuel level: expression, current frame
index, store in; outcome and store out (`none` = out of fuel). -/
abbrev Evaluator := Expr → Nat → Store → Option (Outcome Value × Store)

/-- Handler for `define`, from `src/eval.rs` `eval_define`.  The Rust code
indexes `list[1]` and `list[2]` with no length check, so a missing operand is
a `crash`; a non-symbol at `list[1]` is rejected before `list[2]` is touched. -/
def eval_define (ev : Evaluator) (list : List Expr) (ref : Nat) (st : Store) :
    Option (Outcome Value × Store) :=
  match list.get? 1 with
  | none => some (.crash, st)
  | some (.symbol name) =>
    match list.get? 2 with
    | none => some (.crash, st)
    | some e2 =>
      match ev e2 ref st with
      | some (.ok v, st') => some (.ok v, envDefine st' ref name v)
      | other => other
  | some _ => some (.err (.typeError "Expected symbol after define"), st)

/-- Conversion of a parameter list to names, from the `collect` in
`src/eval.rs` `eval_lambda`. -/
def paramNames : List Expr → Except EvalError (List String)
  | [] => .ok []
  | .symbol s :: rest => do
    let r ← paramNames rest
    .ok (s :: r)
  | _ :: _ => .error (.typeError "Expected symbol in parameter list")

/-- Handler for `lambda`, from `src/eval.rs` `eval_lambda`.  Indexes
`list[1]` and `list[2]` with no length check; the parameter list is checked
before `list[2]` is touched; the closure captures the current frame `ref`. -/
def eval_lambda (list : List Expr) (ref : Nat) (st : Store) :
    Option (Outcome Value × Store) :=
  match list.get? 1 with
  | none => some (.crash, st)
  | some (.list p) =>
    match paramNames p with
    | .error e => some (.err e, st)
    | .ok params =>
      match list.get? 2 with
      | none => some (.crash, st)
      | some body => some (.ok (.lambda params body ref), st)
  | some _ => some (.err (.typeError "Expected list of params"), st)

/-- Left-to-right evaluation of a sequence for effect, the loop of
`src/eval.rs` `eval_begin`: the accumulator starts at the boolean-false
sentinel and holds the value of the last expression evaluated so far; the
first failure is returned with the store as mutated so far. -/
def evalSeq (ev : Evaluator) (acc : Value) :
    List Expr → Nat → Store → Option (Outcome Value × Store)
  | [], _, st => some (.ok acc, st)
  | e :: rest, ref, st =>
    match ev e ref st with
    | some (.ok v, st') => evalSeq ev v rest ref st'
    | other => other

/-- Handler for `begin`, from `src/eval.rs` `eval_begin`. -/
def eval_begin (ev : Evaluator) (list : List Expr) (ref : Nat) (st : Store) :
    Option (Outcome Value × Store) :=
  evalSeq ev (.boolean false) (list.drop 1) ref st

/-- Handler for `if`, from `src/eval.rs` `eval_if`: exactly four elements
(keyword plus three operands) or `ArityMismatch`; the condition must be a
boolean; only the selected branch is evaluated. -/
def eval_if (ev : Evaluator) (list : List Expr) (ref : Nat) (st : Store) :
    Option (Outcome Value × Store) :=
  match list with
  | [_, c, t, e] =>
    match ev c ref st with
    | some (.ok (.boolean true), st') => ev t ref st'
    | some (.ok (.boolean false), st') => ev e ref st'
    | some (.ok _, st') =>
      some (.err (.typeError "Expected boolean in if condition"), st')
    | other => other
  | _ => some (.err .arityMismatch, st)

/-- Binding loop of `src/eval.rs` `eval_let`: each binding pair must be a
two-element list whose head is a symbol; the value expression is evaluated in
the outer frame `outer` and the result is defined into the new frame
`newRef`. -/
def evalBindings (ev : Evaluator) :
    List Expr → Nat → Nat → Store → Option (Outcome Unit × Store)
  | [], _, _, st => some (.ok (), st)
  | .list [nameE, valE] :: rest, outer, newRef, st =>
    match nameE with
    | .symbol name =>
      match ev valE outer st with
      | some (.ok v, st') =>
        evalBindings ev rest outer newRef (envDefine st' newRef name v)
      | some (.err e, st') => some (.err e, st')
      | some (.crash, st') => some (.crash, st')
      | none => none
    | _ => some (.err (.typeError "Expected symbol in let binding"), st)
  | _ :: _, _, _, st => some (.err (.typeError "Invalid binding in let"), st)

/-- Handler for `let`, from `src/eval.rs` `eval_let`: exactly three elements
or `ArityMismatch`; the bindings position must be a list; a new child frame
of the current frame is allocated (at index `st.length`), the bindings are
evaluated in the outer frame and defined into the child, and the body is
evaluated in the child. -/
def eval_let (ev : Evaluator) (list : List Expr) (ref : Nat) (st : Store) :
    Option (Outcome Value × Store) :=
  match list with
  | [_, bindingsE, body] =>
    match bindingsE with
    | .list pairs =>
      match evalBindings ev pairs ref st.length (st ++ [⟨some ref, []⟩]) with
      | some (.ok _, st') => ev body st.length st'
      | some (.err e, st') => some (.err e, st')
      | some (.crash, st') => some (.crash, st')
      | none => none
    | _ => some (.err (.typeError "Expected list of bindings in let"), st)
  | _ => some (.err .arityMismatch, st)

/-- Left-to-right evaluation of an argument list, the `collect` in
`src/eval.rs` `eval_application`: stops at the first failure. -/
def evalArgs (ev : Evaluator) :
    List Expr → Nat → Store → Option (Outcome (List Value) × Store)
  | [], _, st => some (.ok [], st)
  | e :: rest, ref, st =>
    match ev e ref st with
    | some (.ok v, st') =>
      match evalArgs ev rest ref st' with
      | some (.ok vs, st'') => some (.ok (v :: vs), st'')
      | some (.err e2, st'') => some (.err e2, st'')
      | some (.crash, st'') => some (.crash, st'')
      | none => none
    | some (.err e2, st') => some (.err e2, st')
    | some (.crash, st') => some (.crash, st')
    | none => none

/-- Parameter-binding loop of `src/eval.rs` `eval_application`: define each
(parameter, argument) pair into the frame at `newRef`, left to right. -/
def defineParams (newRef : Nat) : List (String × Value) → Store → Store
  | [], st => st
  | (k, v) :: rest, st => defineParams newRef rest (envDefine st newRef k v)

/-- Application rule, from `src/eval.rs` `eval_application`: evaluate the
head, then every argument; a builtin function is applied directly; a lambda
checks the arity, allocates a fresh frame extending the closure's captured
frame, binds the parameters into it and evaluates the body there; anything
else is `NotCallable`. -/
def eval_application (ev : Evaluator) (list : List Expr) (ref : Nat)
    (st : Store) : Option (Outcome Value × Store) :=
  match list with
  | [] => some (.crash, st)
  | fe :: argsE =>
    match ev fe ref st with
    | some (.ok funcVal, st1) =>
      match evalArgs ev argsE ref st1 with
      | some (.ok argVals, st2) =>
        match funcVal with
        | .function f =>
          match applyBuiltin f argVals with
          | .ok v => some (.ok v, st2)
          | .err e => some (.err e, st2)
          | .crash => some (.crash, st2)
        | .lambda params body cenv =>
          if params.length ≠ argVals.length then
            some (.err .arityMismatch, st2)
          else
            ev body st2.length
              (defineParams st2.length (params.zip argVals)
                (st2 ++ [⟨some cenv, []⟩]))
        | _ => some (.err .notCallable, st2)
      | some (.err e, st2) => some (.err e, st2)
      | some (.crash, st2) => some (.crash, st2)
      | none => none
    | some (.err e, st1) => some (.err e, st1)
    | some (.crash, st1) => some (.crash, st1)
    | none => none

/-- One step of the evaluator, the body of `src/eval.rs` `eval`: literals,
symbol lookup, the empty list, the five special forms dispatched purely on
the leading symbol, and the application rule for everything else. -/
def evalStep (ev : Evaluator) : Evaluator := fun e ref st =>
  match e with
  | .number n => some (.ok (.number n), st)
  | .boolean b => some (.ok (.boolean b), st)
  | .string s => some (.ok (.string s), st)
  | .symbol s =>
    match envGet st ref s with
    | some v => some (.ok v, st)
    | none => some (.err (.undefinedSymbol s), st)
  | .list [] => some (.ok (.list []), st)
  | .list (h :: t) =>
    match h with
    | .symbol s =>
      if s = "define" then eval_define ev (.symbol s :: t) ref st
      else if s = "lambda" then eval_lambda (.symbol s :: t) ref st
      else if s = "begin" then eval_begin ev (.symbol s :: t) ref st
      else if s = "if" then eval_if ev (.symbol s :: t) ref st
      else if s = "let" then eval_let ev (.symbol s :: t) ref st
      else eval_application ev (.symbol s :: t) ref st
    | _ => eval_application ev (h :: t) ref st

/-- Fueled evaluator for `src/eval.rs` `eval`: each recursive call of the
Rust `eval` costs one unit of fuel; `none` means the fuel ran out. -/
def eval : Nat → Evaluator
  | 0 => fun _ _ _ => none
  | fuel + 1 => evalStep (eval fuel)

/-- Root environment of `src/env.rs` `default_env`, as a one-frame store:
frame 0 has no parent and binds the fourteen builtins. -/
def default_env : Store :=
  [⟨none, [("+", .function .add), ("-", .function .sub),
           ("*", .function .mul), ("/", .function .div),
           ("=", .function .eq), ("<", .function .lt),
           (">", .function .gt),
           ("and", .function .and), ("or", .function .or),
           ("not", .function .not),
           ("list", .function .list), ("car", .function .car),
           ("cdr", .function .cdr), ("cons", .function .cons)]⟩]

/-! ## Supporting lemmas -/

theorem lookupVar_insertVar_self (vars : List (String × Value)) (k : String)
    (v : Value) : lookupVar (insertVar vars k v) k = some v := by
  induction vars with
  | nil => simp [insertVar, lookupVar]
  | cons kv rest ih =>
    obtain ⟨k', w⟩ := kv
    by_cases h : k' = k
    · subst h
      simp [insertVar, lookupVar]
    · simp [insertVar, lookupVar, h, ih]

theorem lookupVar_insertVar_other (vars : List (String × Value))
    (k k' : String) (v : Value) (h : k' ≠ k) :
    lookupVar (insertVar vars k v) k' = lookupVar vars k' := by
  induction vars with
  | nil => simp [insertVar, lookupVar, Ne.symm h]
  | cons kv rest ih =>
    obtain ⟨k0, w⟩ := kv
    by_cases h0 : k0 = k
    · subst h0
      simp [insertVar, lookupVar, Ne.symm h]
    · by_cases h1 : k0 = k'
      · subst h1
        simp [insertVar, lookupVar, h0]
      · simp [insertVar, lookupVar, h0, h1, ih]

theorem get?_set_self (st : Store) (i : Nat) (fr' : Frame) (h : i < st.length) :
    (st.set i fr').get? i = some fr' := by
  induction st generalizing i with
  | nil => simp at h
  | cons a rest ih =>
    cases i with
    | zero => rfl
    | succ j =>
      simp only [List.set, List.get?]
      exact ih j (by simpa using h)

theorem get?_set_other (st : Store) (i j : Nat) (fr' : Frame) (h : i ≠ j) :
    (st.set i fr').get? j = st.get? j := by
  induction st generalizing i j with
  | nil => simp
  | cons a rest ih =>
    cases i with
    | zero =>
      cases j with
      | zero => exact absurd rfl h
      | succ j' => rfl
    | succ i' =>
      cases j with
      | zero => rfl
      | succ j' =>
        simp only [List.set, List.get?]
        exact ih i' j' (by omega)

theorem get?_concat (st : Store) (fr : Frame) :
    (st ++ [fr]).get? st.length = some fr := by
  induction st with
  | nil => rfl
  | cons a rest ih => simp [ih]

theorem set_concat (st : Store) (fr fr' : Frame) :
    (st ++ [fr]).set st.length fr' = st ++ [fr'] := by
  induction st with
  | nil => rfl
  | cons a rest ih => simp [ih]

theorem envGetAux_eq_firstLookup (st : Store) (key : String) :
    ∀ (gas ref : Nat),
      envGetAux st gas ref key = firstLookup (frameChainAux st gas ref) key := by
  intro gas
  induction gas with
  | zero => intro ref; rfl
  | succ g ih =>
    intro ref
    simp only [envGetAux, frameChainAux]
    cases hfr : st.get? ref with
    | none => rfl
    | some fr =>
      simp only [firstLookup]
      cases hv : lookupVar fr.vars key with
      | some v => rfl
      | none =>
        cases hp : fr.parent with
        | none => rfl
        | some p => exact ih p

/-! ## Claims -/

/-- C2: for every frame, `define` inserts or overwrites the name only in that
frame's own bindings and leaves every other frame (in particular every
ancestor) unchanged; `lookup` returns the value from the first frame on the
walk from the given frame through its parents that binds the name; lookup
against a root frame with no match gives not-found, which the evaluator
turns into `UndefinedSymbol`. -/
theorem claim_C2_env_define_and_get :
    (∀ (st : Store) (ref : Nat) (k : String) (v : Value) (fr : Frame),
      st.get? ref = some fr →
        (envDefine st ref k v).get? ref = some ⟨fr.parent, insertVar fr.vars k v⟩
        ∧ lookupVar (insertVar fr.vars k v) k = some v
        ∧ (∀ k', k' ≠ k →
            lookupVar (insertVar fr.vars k v) k' = lookupVar fr.vars k')
        ∧ (∀ j, j ≠ ref → (envDefine st ref k v).get? j = st.get? j))
    ∧ (∀ (st : Store) (ref : Nat) (k : String),
        envGet st ref k = firstLookup (frameChain st ref) k)
    ∧ (∀ (st : Store) (ref : Nat) (k : String) (fr : Frame),
        st.get? ref = some fr → fr.parent = none → lookupVar fr.vars k = none →
        envGet st ref k = none)
    ∧ (∀ (fuel ref : Nat) (st : Store) (s : String),
        (∀ v, envGet st ref s = some v →
          eval (fuel + 1) (.symbol s) ref st = some (.ok v, st))
        ∧ (envGet st ref s = none →
          eval (fuel + 1) (.symbol s) ref st =
            some (.err (.undefinedSymbol s), st))) := by
  refine ⟨?_, ?_, ?_, ?_⟩
  · intro st ref k v fr hfr
    have hlen : ref < st.length := by
      by_contra hge
      rw [List.get?_eq_none.mpr (by omega)] at hfr
      exact Option.noConfusion hfr
    refine ⟨?_, lookupVar_insertVar_self fr.vars k v,
            fun k' hk' => lookupVar_insertVar_other fr.vars k k' v hk', ?_⟩
    · simp only [envDefine, hfr]
      exact get?_set_self st ref _ hlen
    · intro j hj
      simp only [envDefine, hfr]
      exact get?_set_other st ref j _ (fun h => hj h.symm)
  · intro st ref k
    exact envGetAux_eq_firstLookup st k (ref + 1) ref
  · intro st ref k fr hfr hroot hmiss
    have hfr' : st[ref]? = some fr := by
      rw [← List.get?_eq_getElem?]; exact hfr
    simp [envGet, envGetAux, hfr, hfr', hmiss, hroot]
  · intro fuel ref st s
    constructor
    · intro v hv
      simp [eval, evalStep, hv]
    · intro hnone
      simp [eval, evalStep, hnone]

/-- Witness for C2 at concrete inputs: a two-frame store where the child
shadows nothing; define writes into the child only, and lookup walks to the
parent. -/
theorem claim_C2_witness :
    (envDefine [⟨none, [("y", .number 1)]⟩, ⟨some 0, []⟩] 1 "x" (.number 7)).get? 1
        = some ⟨some 0, [("x", .number 7)]⟩
    ∧ (envDefine [⟨none, [("y", .number 1)]⟩, ⟨some 0, []⟩] 1 "x" (.number 7)).get? 0
        = some ⟨none, [("y", .number 1)]⟩
    ∧ envGet [⟨none, [("y", .number 1)]⟩, ⟨some 0, []⟩] 1 "y"
        = firstLookup (frameChain [⟨none, [("y", .number 1)]⟩, ⟨some 0, []⟩] 1) "y"
    ∧ envGet [⟨none, []⟩] 0 "z" = none
    ∧ eval 1 (.symbol "z") 0 [⟨none, []⟩]
        = some (.err (.undefinedSymbol "z"), [⟨none, []⟩]) := by
  have h := claim_C2_env_define_and_get
  refine ⟨(h.1 [⟨none, [("y", .number 1)]⟩, ⟨some 0, []⟩] 1 "x" (.number 7)
            ⟨some 0, []⟩ rfl).1,
          (h.1 [⟨none, [("y", .number 1)]⟩, ⟨some 0, []⟩] 1 "x" (.number 7)
            ⟨some 0, []⟩ rfl).2.2.2 0 (by decide),
          h.2.1 [⟨none, [("y", .number 1)]⟩, ⟨some 0, []⟩] 1 "y",
          h.2.2.1 [⟨none, []⟩] 0 "z" ⟨none, []⟩ rfl rfl rfl,
          (h.2.2.2 0 0 [⟨none, []⟩] "z").2 rfl⟩

/-- C4: an `if` form with an operand count other than three is an
`ArityMismatch` and nothing is evaluated; the condition is evaluated first; a
non-boolean condition value is a `TypeError`; a boolean condition selects
exactly one branch, whose evaluation (value and store effects) is the entire
remaining computation, so the other branch is never evaluated; an error from
the condition propagates. -/
theorem claim_C4_if_form :
    (∀ (fuel ref : Nat) (st : Store) (rest : List Expr), rest.length ≠ 3 →
        eval (fuel + 1) (.list (.symbol "if" :: rest)) ref st
          = some (.err .arityMismatch, st))
    ∧ (∀ (fuel ref : Nat) (st st' : Store) (c t e : Expr),
        (eval fuel c ref st = some (.ok (.boolean true), st') →
          eval (fuel + 1) (.list [.symbol "if", c, t, e]) ref st
            = eval fuel t ref st')
        ∧ (eval fuel c ref st = some (.ok (.boolean false), st') →
          eval (fuel + 1) (.list [.symbol "if", c, t, e]) ref st
            = eval fuel e ref st')
        ∧ (∀ v, eval fuel c ref st = some (.ok v, st') → (∀ b, v ≠ .boolean b) →
          eval (fuel + 1) (.list [.symbol "if", c, t, e]) ref st
            = some (.err (.typeError "Expected boolean in if condition"), st'))
        ∧ (∀ er, eval fuel c ref st = some (.err er, st') →
          eval (fuel + 1) (.list [.symbol "if", c, t, e]) ref st
            = some (.err er, st'))) := by
  constructor
  · intro fuel ref st rest hlen
    match rest with
    | [] => rfl
    | [a] => rfl
    | [a, b] => rfl
    | [a, b, c] => simp at hlen
    | a :: b :: c :: d :: tail => rfl
  · intro fuel ref st st' c t e
    refine ⟨?_, ?_, ?_, ?_⟩
    · intro h
      simp [eval, evalStep, eval_if, h]
    · intro h
      simp [eval, evalStep, eval_if, h]
    · intro v h hnb
      cases v with
      | boolean b => exact absurd rfl (hnb b)
      | number n => simp [eval, evalStep, eval_if, h]
      | string s => simp [eval, evalStep, eval_if, h]
      | symbol s => simp [eval, evalStep, eval_if, h]
      | function f => simp [eval, evalStep, eval_if, h]
      | lambda p b en => simp [eval, evalStep, eval_if, h]
      | list l => simp [eval, evalStep, eval_if, h]
    · intro er h
      simp [eval, evalStep, eval_if, h]

/-- Witness for C4 at the spec's own examples: `(if #t 1 2)` evaluates only
the then branch, `(if #f 1 2)` only the else branch, `(if 5 1 2)` is a type
error, `(if #t 1)` is an arity error. -/
theorem claim_C4_witness :
    eval 2 (.list [.symbol "if", .boolean true, .number 1]) 0 [⟨none, []⟩]
      = some (.err .arityMismatch, [⟨none, []⟩])
    ∧ eval 2 (.list [.symbol "if", .boolean true, .number 1, .number 2]) 0
        [⟨none, []⟩] = eval 1 (.number 1) 0 [⟨none, []⟩]
    ∧ eval 2 (.list [.symbol "if", .boolean false, .number 1, .number 2]) 0
        [⟨none, []⟩] = eval 1 (.number 2) 0 [⟨none, []⟩]
    ∧ eval 2 (.list [.symbol "if", .number 5, .number 1, .number 2]) 0
        [⟨none, []⟩]
      = some (.err (.typeError "Expected boolean in if condition"), [⟨none, []⟩]) := by
  have h := claim_C4_if_form
  exact ⟨h.1 1 0 [⟨none, []⟩] [.boolean true, .number 1] (by decide),
         (h.2 1 0 [⟨none, []⟩] [⟨none, []⟩] (.boolean true) (.number 1)
           (.number 2)).1 rfl,
         (h.2 1 0 [⟨none, []⟩] [⟨none, []⟩] (.boolean false) (.number 1)
           (.number 2)).2.1 rfl,
         (h.2 1 0 [⟨none, []⟩] [⟨none, []⟩] (.number 5) (.number 1)
           (.number 2)).2.2.1 (.number 5) rfl
           (fun b hb => Value.noConfusion hb)⟩

/-- C5: a `begin` form evaluates its sub-expressions left to right in the
current frame through `evalSeq`; an empty `begin` returns the boolean-false
sentinel rather than an error; a successful sub-expression hands its value
and its mutated store to the rest of the sequence, the last value is
returned, and a failing sub-expression returns its error together with the
store as already mutated — earlier `define`s are not undone.  The concrete
conjunct shows `(begin (define x 5) y)` failing with `UndefinedSymbol y`
while `x ↦ 5` remains in the root frame. -/
theorem claim_C5_begin_form :
    (∀ (fuel ref : Nat) (st : Store) (rest : List Expr),
        eval (fuel + 1) (.list (.symbol "begin" :: rest)) ref st
          = evalSeq (eval fuel) (.boolean false) rest ref st)
    ∧ (∀ (fuel ref : Nat) (st : Store),
        eval (fuel + 1) (.list [.symbol "begin"]) ref st
          = some (.ok (.boolean false), st))
    ∧ (∀ (fuel ref : Nat) (acc : Value) (st : Store),
        evalSeq (eval fuel) acc [] ref st = some (.ok acc, st))
    ∧ (∀ (fuel ref : Nat) (acc v : Value) (st st' : Store) (e : Expr)
          (rest : List Expr),
        (eval fuel e ref st = some (.ok v, st') →
          evalSeq (eval fuel) acc (e :: rest) ref st
            = evalSeq (eval fuel) v rest ref st')
        ∧ (∀ er, eval fuel e ref st = some (.err er, st') →
          evalSeq (eval fuel) acc (e :: rest) ref st = some (.err er, st')))
    ∧ eval 3 (.list [.symbol "begin",
          .list [.symbol "define", .symbol "x", .number 5], .symbol "y"]) 0
          [⟨none, []⟩]
        = some (.err (.undefinedSymbol "y"), [⟨none, [("x", .number 5)]⟩]) := by
  refine ⟨?_, ?_, ?_, ?_, ?_⟩
  · intro fuel ref st rest
    rfl
  · intro fuel ref st
    rfl
  · intro fuel ref acc st
    rfl
  · intro fuel ref acc v st st' e rest
    constructor
    · intro h
      simp [evalSeq, h]
    · intro er h
      simp [evalSeq, h]
  · rfl

/-- Witness for C5: the sequencing conjuncts applied at concrete inputs — a
successful first sub-expression threads its value and store, a failing one
returns immediately. -/
theorem claim_C5_witness :
    evalSeq (eval 2) (.boolean false) [.number 4, .number 9] 0 [⟨none, []⟩]
      = evalSeq (eval 2) (.number 4) [.number 9] 0 [⟨none, []⟩]
    ∧ evalSeq (eval 2) (.boolean false) [.symbol "q", .number 9] 0 [⟨none, []⟩]
      = some (.err (.undefinedSymbol "q"), [⟨none, []⟩]) := by
  have h := claim_C5_begin_form
  exact ⟨(h.2.2.2.1 2 0 (.boolean false) (.number 4) [⟨none, []⟩] [⟨none, []⟩]
            (.number 4) [.number 9]).1 rfl,
         (h.2.2.2.1 2 0 (.boolean false) (.number 0) [⟨none, []⟩] [⟨none, []⟩]
            (.symbol "q") [.number 9]).2 (.undefinedSymbol "q") rfl⟩

/-- C10: for every store and frame — in particular whatever the five
reserved names are bound to — a non-empty list headed by the symbol
`define`, `lambda`, `begin`, `if` or `let` is dispatched to that special
form's handler purely on the syntactic symbol, and every other head goes to
the application rule, so the reserved forms can never be shadowed or invoked
through application.  The concrete conjunct defines a variable named `if`
and shows `(if #t 1 2)` still evaluating as the special form. -/
theorem claim_C10_special_form_dispatch :
    (∀ (fuel ref : Nat) (st : Store) (rest : List Expr),
        eval (fuel + 1) (.list (.symbol "define" :: rest)) ref st
          = eval_define (eval fuel) (.symbol "define" :: rest) ref st
        ∧ eval (fuel + 1) (.list (.symbol "lambda" :: rest)) ref st
          = eval_lambda (.symbol "lambda" :: rest) ref st
        ∧ eval (fuel + 1) (.list (.symbol "begin" :: rest)) ref st
          = eval_begin (eval fuel) (.symbol "begin" :: rest) ref st
        ∧ eval (fuel + 1) (.list (.symbol "if" :: rest)) ref st
          = eval_if (eval fuel) (.symbol "if" :: rest) ref st
        ∧ eval (fuel + 1) (.list (.symbol "let" :: rest)) ref st
          = eval_let (eval fuel) (.symbol "let" :: rest) ref st)
    ∧ (∀ (fuel ref : Nat) (st : Store) (s : String) (rest : List Expr),
        s ∉ ["define", "lambda", "begin", "if", "let"] →
        eval (fuel + 1) (.list (.symbol s :: rest)) ref st
          = eval_application (eval fuel) (.symbol s :: rest) ref st)
    ∧ (∀ (fuel ref : Nat) (st : Store) (hd : Expr) (rest : List Expr),
        (∀ s, hd ≠ .symbol s) →
        eval (fuel + 1) (.list (hd :: rest)) ref st
          = eval_application (eval fuel) (hd :: rest) ref st)
    ∧ eval 4 (.list [.symbol "begin",
          .list [.symbol "define", .symbol "if", .boolean false],
          .list [.symbol "if", .boolean true, .number 1, .number 2]]) 0
          [⟨none, []⟩]
        = some (.ok (.number 1), [⟨none, [("if", .boolean false)]⟩]) := by
  refine ⟨?_, ?_, ?_, ?_⟩
  · intro fuel ref st rest
    exact ⟨rfl, rfl, rfl, rfl, rfl⟩
  · intro fuel ref st s rest hmem
    simp only [List.mem_cons, List.mem_singleton, not_or] at hmem
    obtain ⟨h1, h2, h3, h4, h5, _⟩ := hmem
    simp [eval, evalStep, h1, h2, h3, h4, h5]
  · intro fuel ref st hd rest hns
    cases hd with
    | symbol s => exact absurd rfl (hns s)
    | number n => rfl
    | boolean b => rfl
    | string s => rfl
    | list l => rfl
  · rfl

/-- Witness for C10: the non-special-symbol conjunct at `foo`, and the
non-symbol-head conjunct at a number head. -/
theorem claim_C10_witness :
    eval 3 (.list [.symbol "foo", .number 1]) 0 [⟨none, []⟩]
      = eval_application (eval 2) [.symbol "foo", .number 1] 0 [⟨none, []⟩]
    ∧ eval 3 (.list [.number 42, .number 1]) 0 [⟨none, []⟩]
      = eval_application (eval 2) [.number 42, .number 1] 0 [⟨none, []⟩] := by
  have h := claim_C10_special_form_dispatch
  exact ⟨h.2.1 2 0 [⟨none, []⟩] "foo" [.number 1] (by decide),
         h.2.2.1 2 0 [⟨none, []⟩] (.number 42) [.number 1]
           (fun s hs => Expr.noConfusion hs)⟩

theorem paramNames_map_symbol (ps : List String) :
    paramNames (ps.map .symbol) = .ok ps := by
  induction ps with
  | nil => rfl
  | cons p rest ih =>
    show (do
      let r ← paramNames (rest.map .symbol)
      Except.ok (p :: r)) = Except.ok (p :: rest)
    rw [ih]
    rfl

/-- C9 counterexample: `(define 5)` is a non-empty list headed by `define`
with fewer than three elements, yet evaluation returns an `EvalError` (the
type error from the non-symbol at index 1, raised before `list[2]` is
indexed) rather than crashing, refuting the claim's universal "does not
return any EvalError". -/
theorem claim_C9_counterexample :
    eval 2 (.list [.symbol "define", .number 5]) 0 [⟨none, []⟩]
      = some (.err (.typeError "Expected symbol after define"), [⟨none, []⟩]) :=
  rfl

/-- C9 as amended: a `define` or `lambda` form with fewer than three elements
crashes with an out-of-bounds panic instead of returning an `EvalError`
whenever the element at index 1 is absent or passes the handler's shape
check — a bare `(define)`, a `(define x)` with a symbol, a bare `(lambda)`,
and a `(lambda (p1 ...))` whose parameters are all symbols; if index 1 fails
the shape check (e.g. `(define 5)`), the handler returns a `TypeError`
before reaching `list[2]`. -/
theorem claim_C9_short_define_lambda_crash :
    ∀ (fuel ref : Nat) (st : Store),
      eval (fuel + 1) (.list [.symbol "define"]) ref st = some (.crash, st)
      ∧ (∀ x, eval (fuel + 1) (.list [.symbol "define", .symbol x]) ref st
          = some (.crash, st))
      ∧ eval (fuel + 1) (.list [.symbol "lambda"]) ref st = some (.crash, st)
      ∧ (∀ ps : List String,
          eval (fuel + 1) (.list [.symbol "lambda", .list (ps.map .symbol)]) ref st
            = some (.crash, st))
      ∧ (∀ n : Int, eval (fuel + 1) (.list [.symbol "define", .number n]) ref st
          = some (.err (.typeError "Expected symbol after define"), st)) := by
  intro fuel ref st
  refine ⟨rfl, fun x => rfl, rfl, ?_, fun n => rfl⟩
  intro ps
  simp [eval, evalStep, eval_lambda, paramNames_map_symbol ps]

/-- C3: a `let` form of any shape other than `(let bindings body)` is an
`ArityMismatch`; a non-list bindings position is a `TypeError`; otherwise a
new child frame of the current frame is allocated and each well-formed
binding `(x e)` evaluates `e` in the *outer* frame and defines the result
into the child, so bindings cannot see each other or themselves; the body is
then evaluated in the child frame; a binding that is not a two-element list,
or whose name is not a symbol, is a `TypeError`.  The first concrete
conjunct shows `(let ((x 1) (y x)) y)` failing with `UndefinedSymbol x` in
an empty root frame; the second shows `(begin (define x 5)
(let ((x (+ x 1))) x))` evaluating to `6` — the binding's `x` resolves to
the outer `5`, not to the binding itself. -/
theorem claim_C3_let_form :
    (∀ (fuel ref : Nat) (st : Store) (rest : List Expr), rest.length ≠ 2 →
        eval (fuel + 1) (.list (.symbol "let" :: rest)) ref st
          = some (.err .arityMismatch, st))
    ∧ (∀ (fuel ref : Nat) (st : Store) (b body : Expr), (∀ l, b ≠ .list l) →
        eval (fuel + 1) (.list [.symbol "let", b, body]) ref st
          = some (.err (.typeError "Expected list of bindings in let"), st))
    ∧ (∀ (fuel ref : Nat) (st st' : Store) (pairs : List Expr) (body : Expr),
        (∀ u, evalBindings (eval fuel) pairs ref st.length
              (st ++ [⟨some ref, []⟩]) = some (.ok u, st') →
          eval (fuel + 1) (.list [.symbol "let", .list pairs, body]) ref st
            = eval fuel body st.length st')
        ∧ (∀ er, evalBindings (eval fuel) pairs ref st.length
              (st ++ [⟨some ref, []⟩]) = some (.err er, st') →
          eval (fuel + 1) (.list [.symbol "let", .list pairs, body]) ref st
            = some (.err er, st')))
    ∧ (∀ (fuel outer new : Nat) (st st' : Store) (x : String) (e : Expr)
          (rest : List Expr),
        (∀ v, eval fuel e outer st = some (.ok v, st') →
          evalBindings (eval fuel) (.list [.symbol x, e] :: rest) outer new st
            = evalBindings (eval fuel) rest outer new (envDefine st' new x v))
        ∧ (∀ er, eval fuel e outer st = some (.err er, st') →
          evalBindings (eval fuel) (.list [.symbol x, e] :: rest) outer new st
            = some (.err er, st')))
    ∧ (∀ (fuel outer new : Nat) (st : Store) (nameE valE : Expr)
          (rest : List Expr),
        (∀ s, nameE ≠ .symbol s) →
        evalBindings (eval fuel) (.list [nameE, valE] :: rest) outer new st
          = some (.err (.typeError "Expected symbol in let binding"), st))
    ∧ (∀ (fuel outer new : Nat) (st : Store) (p : Expr) (rest : List Expr),
        (∀ a b, p ≠ .list [a, b]) →
        evalBindings (eval fuel) (p :: rest) outer new st
          = some (.err (.typeError "Invalid binding in let"), st))
    ∧ eval 4 (.list [.symbol "let",
          .list [.list [.symbol "x", .number 1],
                 .list [.symbol "y", .symbol "x"]],
          .symbol "y"]) 0 [⟨none, []⟩]
        = some (.err (.undefinedSymbol "x"),
                [⟨none, []⟩, ⟨some 0, [("x", .number 1)]⟩])
    ∧ (∃ st', eval 8 (.list [.symbol "begin",
          .list [.symbol "define", .symbol "x", .number 5],
          .list [.symbol "let",
            .list [.list [.symbol "x",
                          .list [.symbol "+", .symbol "x", .number 1]]],
            .symbol "x"]]) 0 default_env
        = some (.ok (.number 6), st')) := by
  refine ⟨?_, ?_, ?_, ?_, ?_, ?_, ?_, ?_⟩
  · intro fuel ref st rest hlen
    match rest with
    | [] => rfl
    | [a] => rfl
    | [a, b] => simp at hlen
    | a :: b :: c :: tail => rfl
  · intro fuel ref st b body hnl
    cases b with
    | list l => exact absurd rfl (hnl l)
    | number n => rfl
    | boolean v => rfl
    | string s => rfl
    | symbol s => rfl
  · intro fuel ref st st' pairs body
    constructor
    · intro u h
      simp [eval, evalStep, eval_let, h]
    · intro er h
      simp [eval, evalStep, eval_let, h]
  · intro fuel outer new st st' x e rest
    constructor
    · intro v h
      simp [evalBindings, h]
    · intro er h
      simp [evalBindings, h]
  · intro fuel outer new st nameE valE rest hns
    cases nameE with
    | symbol s => exact absurd rfl (hns s)
    | number n => rfl
    | boolean v => rfl
    | string s => rfl
    | list l => rfl
  · intro fuel outer new st p rest hnp
    cases p with
    | number n => rfl
    | boolean v => rfl
    | string s => rfl
    | symbol s => rfl
    | list l =>
      match l with
      | [] => rfl
      | [a] => rfl
      | [a, b] => exact absurd rfl (hnp a b)
      | a :: b :: c :: tail => rfl
  · rfl
  · exact ⟨_, rfl⟩

/-- Witness for C3: the arity, bindings-shape and sequencing conjuncts
applied at concrete inputs. -/
theorem claim_C3_witness :
    eval 2 (.list [.symbol "let", .symbol "x"]) 0 [⟨none, []⟩]
      = some (.err .arityMismatch, [⟨none, []⟩])
    ∧ eval 2 (.list [.symbol "let", .symbol "x", .number 1]) 0 [⟨none, []⟩]
      = some (.err (.typeError "Expected list of bindings in let"), [⟨none, []⟩])
    ∧ evalBindings (eval 2) [.list [.symbol "x", .number 1]] 0 1
        [⟨none, []⟩, ⟨some 0, []⟩]
      = evalBindings (eval 2) [] 0 1
          (envDefine [⟨none, []⟩, ⟨some 0, []⟩] 1 "x" (.number 1))
    ∧ evalBindings (eval 2) [.list [.number 1, .number 2]] 0 1
        [⟨none, []⟩, ⟨some 0, []⟩]
      = some (.err (.typeError "Expected symbol in let binding"),
              [⟨none, []⟩, ⟨some 0, []⟩])
    ∧ evalBindings (eval 2) [.symbol "x"] 0 1 [⟨none, []⟩, ⟨some 0, []⟩]
      = some (.err (.typeError "Invalid binding in let"),
              [⟨none, []⟩, ⟨some 0, []⟩]) := by
  have h := claim_C3_let_form
  exact ⟨h.1 1 0 [⟨none, []⟩] [.symbol "x"] (by decide),
         h.2.1 1 0 [⟨none, []⟩] (.symbol "x") (.number 1)
           (fun l hl => Expr.noConfusion hl),
         (h.2.2.2.1 2 0 1 [⟨none, []⟩, ⟨some 0, []⟩] [⟨none, []⟩, ⟨some 0, []⟩]
           "x" (.number 1) []).1 (.number 1) rfl,
         h.2.2.2.2.1 2 0 1 [⟨none, []⟩, ⟨some 0, []⟩] (.number 1) (.number 2)
           [] (fun s hs => Expr.noConfusion hs),
         h.2.2.2.2.2.1 2 0 1 [⟨none, []⟩, ⟨some 0, []⟩] (.symbol "x") []
           (fun a b hab => Expr.noConfusion hab)⟩

/-- Binding list produced by the parameter-binding loop of
`eval_application` when it starts from an empty fresh frame. -/
def bindParams (params : List String) (vals : List Value) :
    List (String × Value) :=
  (params.zip vals).foldl (fun acc kv => insertVar acc kv.1 kv.2) []

theorem envDefine_concat (st : Store) (fr : Frame) (k : String) (v : Value) :
    envDefine (st ++ [fr]) st.length k v
      = st ++ [⟨fr.parent, insertVar fr.vars k v⟩] := by
  simp only [envDefine, get?_concat]
  exact set_concat st fr ⟨fr.parent, insertVar fr.vars k v⟩

theorem defineParams_concat (pairs : List (String × Value)) (st : Store)
    (fr : Frame) :
    defineParams st.length pairs (st ++ [fr])
      = st ++ [⟨fr.parent,
          pairs.foldl (fun acc kv => insertVar acc kv.1 kv.2) fr.vars⟩] := by
  induction pairs generalizing fr with
  | nil => simp [defineParams]
  | cons kv rest ih =>
    obtain ⟨k, v⟩ := kv
    simp only [defineParams, envDefine_concat]
    exact ih ⟨fr.parent, insertVar fr.vars k v⟩

theorem lookupVar_foldl_insert_of_not_mem (pairs : List (String × Value))
    (acc : List (String × Value)) (k : String)
    (h : k ∉ pairs.map Prod.fst) :
    lookupVar (pairs.foldl (fun a kv => insertVar a kv.1 kv.2) acc) k
      = lookupVar acc k := by
  induction pairs generalizing acc with
  | nil => rfl
  | cons kv rest ih =>
    obtain ⟨k0, v0⟩ := kv
    simp only [List.map_cons, List.mem_cons, not_or] at h
    simp only [List.foldl_cons]
    rw [ih (insertVar acc k0 v0) h.2]
    exact lookupVar_insertVar_other acc k0 k v0 h.1

theorem bindParams_positional_acc (params : List String) :
    ∀ (vals : List Value) (acc : List (String × Value)), params.Nodup →
      ∀ (i : Nat) (h1 : i < params.length) (h2 : i < vals.length),
        lookupVar ((params.zip vals).foldl
            (fun a kv => insertVar a kv.1 kv.2) acc) (params.get ⟨i, h1⟩)
          = some (vals.get ⟨i, h2⟩) := by
  induction params with
  | nil => intro vals acc _ i h1 h2; exact absurd h1 (by simp)
  | cons p ps ih =>
    intro vals acc hnd i h1 h2
    cases vals with
    | nil => exact absurd h2 (by simp)
    | cons v vs =>
      obtain ⟨hp, hps⟩ := List.nodup_cons.mp hnd
      cases i with
      | zero =>
        simp only [List.zip_cons_cons, List.foldl_cons, List.get]
        have hnm : p ∉ (ps.zip vs).map Prod.fst := by
          intro hmem
          obtain ⟨⟨a, b⟩, hab, hfst⟩ := List.mem_map.mp hmem
          exact hp (by rw [← hfst]; exact (List.of_mem_zip hab).1)
        rw [lookupVar_foldl_insert_of_not_mem _ _ _ hnm]
        exact lookupVar_insertVar_self acc p v
      | succ j =>
        simp only [List.zip_cons_cons, List.foldl_cons, List.get]
        exact ih vs (insertVar acc p v) hps j (by simpa using h1)
          (by simpa using h2)

/-- C1: when the head of an application evaluates to a closure and the
arguments evaluate to a value list, an argument count differing from the
parameter count yields `ArityMismatch` with the store exactly as after the
argument evaluations (nothing further happens); otherwise the body is
evaluated in a freshly allocated frame whose parent is the closure's
captured frame `cenv` — not the caller's frame `ref` — holding the
parameters bound in order; the positional conjunct checks that in that frame
the i-th parameter looks up to the i-th argument. -/
theorem claim_C1_closure_application :
    (∀ (fuel ref : Nat) (st st1 st2 : Store) (fe : Expr) (argsE : List Expr)
        (params : List String) (body : Expr) (cenv : Nat) (vals : List Value),
      eval fuel fe ref st = some (.ok (.lambda params body cenv), st1) →
      evalArgs (eval fuel) argsE ref st1 = some (.ok vals, st2) →
      eval_application (eval fuel) (fe :: argsE) ref st
        = if params.length = vals.length
          then eval fuel body st2.length
            (st2 ++ [⟨some cenv, bindParams params vals⟩])
          else some (.err .arityMismatch, st2))
    ∧ (∀ (params : List String) (vals : List Value), params.Nodup →
        ∀ (i : Nat) (h1 : i < params.length) (h2 : i < vals.length),
          lookupVar (bindParams params vals) (params.get ⟨i, h1⟩)
            = some (vals.get ⟨i, h2⟩)) := by
  constructor
  · intro fuel ref st st1 st2 fe argsE params body cenv vals hf ha
    simp only [eval_application, hf, ha]
    by_cases hlen : params.length = vals.length
    · have h := defineParams_concat (params.zip vals) st2 ⟨some cenv, []⟩
      simp [hlen, h, bindParams]
    · simp [hlen]
  · intro params vals hnd i h1 h2
    exact bindParams_positional_acc params vals [] hnd i h1 h2

/-- Witness for C1: applying `(lambda (x) x)` to `5` in an empty root store
evaluates the body in a fresh frame over the captured frame with `x ↦ 5`,
and applying it to two arguments is an `ArityMismatch`; the positional
conjunct is checked on the parameter list `[x]`. -/
theorem claim_C1_witness :
    eval_application (eval 3) [.list [.symbol "lambda", .list [.symbol "x"],
        .symbol "x"], .number 5] 0 [⟨none, []⟩]
      = eval 3 (.symbol "x") 1 [⟨none, []⟩, ⟨some 0, [("x", .number 5)]⟩]
    ∧ eval_application (eval 3) [.list [.symbol "lambda", .list [.symbol "x"],
        .symbol "x"], .number 5, .number 6] 0 [⟨none, []⟩]
      = some (.err .arityMismatch, [⟨none, []⟩])
    ∧ lookupVar (bindParams ["x"] [.number 5]) "x" = some (.number 5) := by
  have h := claim_C1_closure_application
  refine ⟨?_, ?_, ?_⟩
  · have e := h.1 3 0 [⟨none, []⟩] [⟨none, []⟩] [⟨none, []⟩]
      (.list [.symbol "lambda", .list [.symbol "x"], .symbol "x"])
      [.number 5] ["x"] (.symbol "x") 0 [.number 5] rfl rfl
    simpa [bindParams, insertVar] using e
  · have e := h.1 3 0 [⟨none, []⟩] [⟨none, []⟩] [⟨none, []⟩]
      (.list [.symbol "lambda", .list [.symbol "x"], .symbol "x"])
      [.number 5, .number 6] ["x"] (.symbol "x") 0
      [.number 5, .number 6] rfl rfl
    simpa using e
  · exact h.2 ["x"] [.number 5] (by simp) 0 (by decide) (by decide)

/-- Test for the `Value::Number` constructor. -/
def isNumber : Value → Bool
  | .number _ => true
  | _ => false

theorem extract_numbers_map (ns : List Int) :
    extract_numbers (ns.map .number) = .ok ns := by
  induction ns with
  | nil => rfl
  | cons n rest ih =>
    show (do
      let r ← extract_numbers (rest.map .number)
      Except.ok (n :: r)) = Except.ok (n :: rest)
    rw [ih]
    rfl

theorem extract_numbers_error (args : List Value) (v : Value)
    (hmem : v ∈ args) (hnn : isNumber v = false) :
    extract_numbers args = .error (.typeError "Expected number") := by
  induction args with
  | nil => simp at hmem
  | cons a rest ih =>
    cases a with
    | number n =>
      have hv : v ∈ rest := by
        rcases List.mem_cons.mp hmem with h | h
        · subst h; simp [isNumber] at hnn
        · exact h
      show (do
        let r ← extract_numbers rest
        Except.ok (n :: r)) = Except.error (.typeError "Expected number")
      rw [ih hv]
      rfl
    | boolean b => rfl
    | string s => rfl
    | symbol s => rfl
    | function f => rfl
    | lambda p b e => rfl
    | list l => rfl

theorem bindE_ok {α β : Type} (a : α) (f : α → Except EvalError β) :
    (Except.ok a >>= f) = f a := rfl

theorem bindE_error {α β : Type} (e : EvalError)
    (f : α → Except EvalError β) :
    ((Except.error e : Except EvalError α) >>= f) = Except.error e := rfl

theorem checkedFold_eq_foldl (f : Int → Int → Int) (ns : List Int) :
    ∀ a : Int, foldInRange f a ns = true →
      checkedFold f a ns = some (ns.foldl f a) := by
  induction ns with
  | nil => intro a _; rfl
  | cons x rest ih =>
    intro a h
    simp only [foldInRange, Bool.and_eq_true] at h
    simp only [checkedFold, h.1, if_true, List.foldl_cons]
    exact ih (f a x) h.2

theorem tdiv_stays_in_range {a : Int} (x : Int) (hmin : i64Min < a)
    (hmax : a ≤ i64Max) :
    i64Min < Int.tdiv a x ∧ Int.tdiv a x ≤ i64Max := by
  have habs : (Int.tdiv a x).natAbs = a.natAbs / x.natAbs :=
    Int.natAbs_tdiv a x
  have hle : (Int.tdiv a x).natAbs ≤ a.natAbs := by
    rw [habs]
    exact Nat.div_le_self _ _
  simp only [i64Min, i64Max] at *
  omega

theorem checkedDivFold_no_zero (xs : List Int) :
    ∀ a : Int, i64Min < a → a ≤ i64Max → 0 ∉ xs →
      checkedDivFold a xs = .ok (xs.foldl Int.tdiv a) := by
  induction xs with
  | nil => intro a _ _ _; rfl
  | cons x rest ih =>
    intro a hmin hmax hz
    simp only [List.mem_cons, not_or] at hz
    have hx : x ≠ 0 := fun h => hz.1 h.symm
    have hno : ¬(a = i64Min ∧ x = -1) := by
      intro hc
      exact absurd hc.1 (by omega)
    have hb := tdiv_stays_in_range x hmin hmax
    simp only [checkedDivFold, if_neg hx, if_neg hno, List.foldl_cons]
    exact ih (Int.tdiv a x) hb.1 hb.2 hz.2

theorem checkedDivFold_zero (xs : List Int) :
    ∀ a : Int, i64Min < a → a ≤ i64Max → 0 ∈ xs →
      checkedDivFold a xs = .err (.other "Division by zero") := by
  induction xs with
  | nil => intro a _ _ h; simp at h
  | cons x rest ih =>
    intro a hmin hmax hz
    by_cases hx : x = 0
    · subst hx
      rfl
    · have hmem : 0 ∈ rest := by
        rcases List.mem_cons.mp hz with h | h
        · exact absurd h.symm hx
        · exact h
      have hno : ¬(a = i64Min ∧ x = -1) := by
        intro hc
        exact absurd hc.1 (by omega)
      have hb := tdiv_stays_in_range x hmin hmax
      simp only [checkedDivFold, if_neg hx, if_neg hno]
      exact ih (Int.tdiv a x) hb.1 hb.2 hmem

theorem builtin_sub_fold (a : Int) (xs : List Int)
    (h : foldInRange (· - ·) a xs = true) :
    builtin_sub (.number a :: xs.map .number)
      = .ok (.number (xs.foldl (· - ·) a)) := by
  have he := extract_numbers_map (a :: xs)
  simp only [List.map_cons] at he
  simp [builtin_sub, he, checkedFold_eq_foldl _ xs a h]

/-- C6 counterexample: `(+ i64::MAX 1)` does not return the mathematical
sum: the `i64` addition overflows, a panic in debug builds and a wrap to
`i64::MIN` in release builds, so under neither profile is the sum of the
arguments returned; likewise `(/ i64::MIN -1)` panics in every profile
instead of returning `2 ^ 63`. -/
theorem claim_C6_counterexample :
    builtin_add [.number i64Max, .number 1] = .crash
    ∧ builtin_div [.number i64Min, .number (-1)] = .crash :=
  ⟨rfl, rfl⟩

/-- C6 as amended: over computations whose intermediate `i64` results stay
in range, the arithmetic builtins behave as claimed — any non-integer
argument is a `TypeError`; `+` with no arguments returns `0` and `*`
returns `1`, and otherwise they return the sum / product of all arguments;
`-` and `/` with no arguments return an `Other` error and with one argument
return it unchanged (`-` does not negate); with more they fold
left-to-right, `(- a b c)` being `a - b - c`; `/` returns the `Other`
division-by-zero error whenever a divisor in the left fold is zero.
Outside the `i64` range, overflow occurs instead, as the final two
conjuncts exhibit. -/
theorem claim_C6_arithmetic_builtins :
    (∀ (args : List Value) (v : Value), v ∈ args → isNumber v = false →
        builtin_add args = .err (.typeError "Expected number")
        ∧ builtin_sub args = .err (.typeError "Expected number")
        ∧ builtin_mul args = .err (.typeError "Expected number")
        ∧ builtin_div args = .err (.typeError "Expected number"))
    ∧ builtin_add [] = .ok (.number 0)
    ∧ builtin_mul [] = .ok (.number 1)
    ∧ (∀ ns : List Int, foldInRange (· + ·) 0 ns = true →
        builtin_add (ns.map .number) = .ok (.number ns.sum))
    ∧ (∀ ns : List Int, foldInRange (· * ·) 1 ns = true →
        builtin_mul (ns.map .number) = .ok (.number ns.prod))
    ∧ builtin_sub [] = .err (.other "Expected at least one argument")
    ∧ builtin_div [] = .err (.other "Expected at least one argument")
    ∧ (∀ a : Int, builtin_sub [.number a] = .ok (.number a)
        ∧ builtin_div [.number a] = .ok (.number a))
    ∧ (∀ (a : Int) (xs : List Int), foldInRange (· - ·) a xs = true →
        builtin_sub (.number a :: xs.map .number)
          = .ok (.number (xs.foldl (· - ·) a)))
    ∧ (∀ a b c : Int, inI64 (a - b) = true → inI64 (a - b - c) = true →
        builtin_sub [.number a, .number b, .number c]
          = .ok (.number (a - b - c)))
    ∧ (∀ (a : Int) (xs : List Int), i64Min < a → a ≤ i64Max → 0 ∉ xs →
        builtin_div (.number a :: xs.map .number)
          = .ok (.number (xs.foldl Int.tdiv a)))
    ∧ (∀ (a : Int) (xs : List Int), i64Min < a → a ≤ i64Max → 0 ∈ xs →
        builtin_div (.number a :: xs.map .number)
          = .err (.other "Division by zero"))
    ∧ builtin_add [.number i64Max, .number 1] = .crash
    ∧ builtin_div [.number i64Min, .number (-1)] = .crash := by
  refine ⟨?_, rfl, rfl, ?_, ?_, rfl, rfl, ?_, ?_, ?_, ?_, ?_, rfl, rfl⟩
  · intro args v hmem hnn
    have h := extract_numbers_error args v hmem hnn
    exact ⟨by simp [builtin_add, h], by simp [builtin_sub, h],
           by simp [builtin_mul, h], by simp [builtin_div, h]⟩
  · intro ns h
    simp [builtin_add, extract_numbers_map,
      checkedFold_eq_foldl _ ns 0 h, List.sum_eq_foldl]
  · intro ns h
    simp [builtin_mul, extract_numbers_map,
      checkedFold_eq_foldl _ ns 1 h, List.prod_eq_foldl]
  · intro a
    exact ⟨rfl, rfl⟩
  · intro a xs h
    exact builtin_sub_fold a xs h
  · intro a b c h1 h2
    have hr : foldInRange (· - ·) a [b, c] = true := by
      simp [foldInRange, h1, h2]
    have e := builtin_sub_fold a [b, c] hr
    simpa using e
  · intro a xs hmin hmax hz
    have he := extract_numbers_map (a :: xs)
    simp only [List.map_cons] at he
    simp [builtin_div, he, checkedDivFold_no_zero xs a hmin hmax hz]
  · intro a xs hmin hmax hz
    have he := extract_numbers_map (a :: xs)
    simp only [List.map_cons] at he
    simp [builtin_div, he, checkedDivFold_zero xs a hmin hmax hz]

/-- Witness for C6 at the spec's own examples, all in `i64` range:
`(+ 1 2 3) = 6`, `(- 10 3 2) = 5`, `(/ 20 2 2) = 5`, `(/ 5 0)` is an
`Other` error, and a string argument to `+` is a `TypeError`. -/
theorem claim_C6_witness :
    builtin_add [.number 1, .number 2, .number 3] = .ok (.number 6)
    ∧ builtin_sub [.number 10, .number 3, .number 2] = .ok (.number 5)
    ∧ builtin_div [.number 20, .number 2, .number 2] = .ok (.number 5)
    ∧ builtin_div [.number 5, .number 0] = .err (.other "Division by zero")
    ∧ builtin_add [.number 1, .string "oops"]
        = .err (.typeError "Expected number") := by
  have h := claim_C6_arithmetic_builtins
  refine ⟨?_, ?_, ?_, ?_, ?_⟩
  · have e := h.2.2.2.1 [1, 2, 3] (by decide)
    simpa using e
  · have e := h.2.2.2.2.2.2.2.2.1 10 [3, 2] (by decide)
    simpa using e
  · have e := h.2.2.2.2.2.2.2.2.2.2.1 20 [2, 2] (by decide) (by decide)
      (by decide)
    simpa using e
  · have e := h.2.2.2.2.2.2.2.2.2.2.2.1 5 [0] (by decide) (by decide)
      (by decide)
    simpa using e
  · exact (h.1 [.number 1, .string "oops"] (.string "oops")
      (by simp) rfl).1

theorem windowsAll_eq_true_iff (r : Int → Int → Bool) :
    ∀ ns : List Int,
      windowsAll r ns = true ↔ List.Chain' (fun a b => r a b = true) ns := by
  intro ns
  induction ns with
  | nil => simp [windowsAll]
  | cons a tail ih =>
    cases tail with
    | nil => simp [windowsAll]
    | cons b rest =>
      simp only [windowsAll, Bool.and_eq_true, List.chain'_cons]
      exact and_congr Iff.rfl ih

theorem windowsAll_lt_iff (ns : List Int) :
    windowsAll (· < ·) ns = true ↔ ns.Pairwise (· < ·) := by
  rw [windowsAll_eq_true_iff]
  simp only [decide_eq_true_eq]
  exact List.chain'_iff_pairwise

theorem windowsAll_gt_iff (ns : List Int) :
    windowsAll (· > ·) ns = true ↔ ns.Pairwise (· > ·) := by
  rw [windowsAll_eq_true_iff]
  simp only [decide_eq_true_eq]
  exact List.chain'_iff_pairwise

/-- C8: `<` and `>` reject any non-integer argument with a `TypeError`; on
integer arguments `<` returns true exactly when the sequence is strictly
increasing and `>` exactly when it is strictly decreasing (and false
otherwise); lists of fewer than two integers are vacuously ordered and
return true. -/
theorem claim_C8_ordering_builtins :
    (∀ (args : List Value) (v : Value), v ∈ args → isNumber v = false →
        builtin_lt args = .error (.typeError "Expected number")
        ∧ builtin_gt args = .error (.typeError "Expected number"))
    ∧ (∀ ns : List Int,
        (builtin_lt (ns.map .number) = .ok (.boolean true)
          ↔ ns.Pairwise (· < ·))
        ∧ (builtin_lt (ns.map .number) = .ok (.boolean false)
          ↔ ¬ ns.Pairwise (· < ·))
        ∧ (builtin_gt (ns.map .number) = .ok (.boolean true)
          ↔ ns.Pairwise (· > ·))
        ∧ (builtin_gt (ns.map .number) = .ok (.boolean false)
          ↔ ¬ ns.Pairwise (· > ·)))
    ∧ (∀ ns : List Int, ns.length < 2 →
        builtin_lt (ns.map .number) = .ok (.boolean true)
        ∧ builtin_gt (ns.map .number) = .ok (.boolean true)) := by
  refine ⟨?_, ?_, ?_⟩
  · intro args v hmem hnn
    have h := extract_numbers_error args v hmem hnn
    exact ⟨by simp [builtin_lt, h, bindE_error],
           by simp [builtin_gt, h, bindE_error]⟩
  · intro ns
    refine ⟨?_, ?_, ?_, ?_⟩
    · simp only [builtin_lt, extract_numbers_map, bindE_ok, Except.ok.injEq,
        Value.boolean.injEq]
      exact windowsAll_lt_iff ns
    · simp only [builtin_lt, extract_numbers_map, bindE_ok, Except.ok.injEq,
        Value.boolean.injEq]
      rw [← windowsAll_lt_iff ns]
      exact Bool.eq_false_iff.trans (by rfl)
    · simp only [builtin_gt, extract_numbers_map, bindE_ok, Except.ok.injEq,
        Value.boolean.injEq]
      exact windowsAll_gt_iff ns
    · simp only [builtin_gt, extract_numbers_map, bindE_ok, Except.ok.injEq,
        Value.boolean.injEq]
      rw [← windowsAll_gt_iff ns]
      exact Bool.eq_false_iff.trans (by rfl)
  · intro ns hlen
    match ns with
    | [] => exact ⟨rfl, rfl⟩
    | [a] => exact ⟨rfl, rfl⟩
    | a :: b :: rest => exact absurd hlen (by simp)

/-- Witness for C8: a non-number argument to `<` and `>` is a type error,
and single-element argument lists return true. -/
theorem claim_C8_witness :
    builtin_lt [.string "a"] = .error (.typeError "Expected number")
    ∧ builtin_gt [.string "a"] = .error (.typeError "Expected number")
    ∧ builtin_lt [.number 5] = .ok (.boolean true)
    ∧ builtin_gt [.number 5] = .ok (.boolean true) := by
  have h := claim_C8_ordering_builtins
  have h1 := h.1 [.string "a"] (.string "a") (by simp) rfl
  have h2 := h.2.2 [5] (by decide)
  exact ⟨h1.1, h1.2, by simpa using h2.1, by simpa using h2.2⟩

theorem builtin_and_skips_true_front (pre : List Value) :
    ∀ rest : List Value, (∀ a ∈ pre, a = .boolean true) →
      builtin_and (pre ++ rest) = builtin_and rest := by
  induction pre with
  | nil => intro rest _; rfl
  | cons a tail ih =>
    intro rest h
    have ha : a = .boolean true := h a (by simp)
    subst ha
    show builtin_and (tail ++ rest) = _
    exact ih rest (fun x hx => h x (by simp [hx]))

theorem builtin_or_skips_false_front (pre : List Value) :
    ∀ rest : List Value, (∀ a ∈ pre, a = .boolean false) →
      builtin_or (pre ++ rest) = builtin_or rest := by
  induction pre with
  | nil => intro rest _; rfl
  | cons a tail ih =>
    intro rest h
    have ha : a = .boolean false := h a (by simp)
    subst ha
    show builtin_or (tail ++ rest) = _
    exact ih rest (fun x hx => h x (by simp [hx]))

/-- C7 counterexample: `builtin_and` applied to `[#f, 5]` returns `Ok #f`
and not a `TypeError`, although the argument list contains the non-boolean
`5` — the scan stops at the first decisive value, so the claim's "any
non-boolean argument is a TypeError" is false as a universal statement. -/
theorem claim_C7_counterexample :
    builtin_and [.boolean false, .number 5] = .ok (.boolean false)
    ∧ ∀ msg, builtin_and [.boolean false, .number 5]
        ≠ .error (.typeError msg) :=
  ⟨rfl, fun _ h => Except.noConfusion h⟩

/-- C7 as amended: `and` and `or` scan their already-evaluated argument list
left to right and return at the first decisive value (`#f` for `and`, `#t`
for `or`); a non-boolean argument raises a `TypeError` only when it is
reached before a decisive value; with no decisive value and all booleans,
`and` returns true and `or` false; `not` takes exactly one argument
(`ArityMismatch` otherwise), rejects a non-boolean with a `TypeError`, and
negates a boolean. -/
theorem claim_C7_boolean_builtins :
    (∀ (pre rest : List Value) (v : Value),
        (∀ a ∈ pre, a = .boolean true) → (∀ b, v ≠ .boolean b) →
        builtin_and (pre ++ v :: rest) = .error (.typeError "Expected boolean"))
    ∧ (∀ pre rest : List Value, (∀ a ∈ pre, a = .boolean true) →
        builtin_and (pre ++ .boolean false :: rest) = .ok (.boolean false))
    ∧ (∀ args : List Value, (∀ a ∈ args, a = .boolean true) →
        builtin_and args = .ok (.boolean true))
    ∧ (∀ (pre rest : List Value) (v : Value),
        (∀ a ∈ pre, a = .boolean false) → (∀ b, v ≠ .boolean b) →
        builtin_or (pre ++ v :: rest) = .error (.typeError "Expected boolean"))
    ∧ (∀ pre rest : List Value, (∀ a ∈ pre, a = .boolean false) →
        builtin_or (pre ++ .boolean true :: rest) = .ok (.boolean true))
    ∧ (∀ args : List Value, (∀ a ∈ args, a = .boolean false) →
        builtin_or args = .ok (.boolean false))
    ∧ (∀ args : List Value, args.length ≠ 1 →
        builtin_not args = .error .arityMismatch)
    ∧ (∀ v : Value, (∀ b, v ≠ .boolean b) →
        builtin_not [v] = .error (.typeError "Expected boolean"))
    ∧ (∀ b : Bool, builtin_not [.boolean b] = .ok (.boolean (!b))) := by
  refine ⟨?_, ?_, ?_, ?_, ?_, ?_, ?_, ?_, ?_⟩
  · intro pre rest v hpre hv
    rw [builtin_and_skips_true_front pre (v :: rest) hpre]
    cases v with
    | boolean b => exact absurd rfl (hv b)
    | number n => rfl
    | string s => rfl
    | symbol s => rfl
    | function f => rfl
    | lambda p b e => rfl
    | list l => rfl
  · intro pre rest hpre
    rw [builtin_and_skips_true_front pre (.boolean false :: rest) hpre]
    rfl
  · intro args h
    have := builtin_and_skips_true_front args [] h
    simpa using this
  · intro pre rest v hpre hv
    rw [builtin_or_skips_false_front pre (v :: rest) hpre]
    cases v with
    | boolean b => exact absurd rfl (hv b)
    | number n => rfl
    | string s => rfl
    | symbol s => rfl
    | function f => rfl
    | lambda p b e => rfl
    | list l => rfl
  · intro pre rest hpre
    rw [builtin_or_skips_false_front pre (.boolean true :: rest) hpre]
    rfl
  · intro args h
    have := builtin_or_skips_false_front args [] h
    simpa using this
  · intro args hlen
    match args with
    | [] => rfl
    | [v] => exact absurd rfl hlen
    | a :: b :: rest => cases a <;> rfl
  · intro v hv
    cases v with
    | boolean b => exact absurd rfl (hv b)
    | number n => rfl
    | string s => rfl
    | symbol s => rfl
    | function f => rfl
    | lambda p b e => rfl
    | list l => rfl
  · intro b
    cases b <;> rfl

/-- Witness for C7 at concrete inputs: a non-boolean reached before a
decisive value is a type error, a decisive value wins, all-boolean scans
report the identity, and `not` behaves on zero, non-boolean and boolean
inputs. -/
theorem claim_C7_witness :
    builtin_and [.boolean true, .number 7] = .error (.typeError "Expected boolean")
    ∧ builtin_and [.boolean true, .boolean false, .number 7] = .ok (.boolean false)
    ∧ builtin_and [.boolean true, .boolean true] = .ok (.boolean true)
    ∧ builtin_or [.boolean false, .boolean true, .number 7] = .ok (.boolean true)
    ∧ builtin_or [.boolean false, .boolean false] = .ok (.boolean false)
    ∧ builtin_not [] = .error .arityMismatch
    ∧ builtin_not [.number 3] = .error (.typeError "Expected boolean")
    ∧ builtin_not [.boolean true] = .ok (.boolean false) := by
  have h := claim_C7_boolean_builtins
  refine ⟨?_, ?_, ?_, ?_, ?_, ?_, ?_, ?_⟩
  · exact h.1 [.boolean true] [] (.number 7) (by simp)
      (fun b hb => Value.noConfusion hb)
  · exact h.2.1 [.boolean true] [.number 7] (by simp)
  · exact h.2.2.1 [.boolean true, .boolean true] (by simp)
  · exact h.2.2.2.2.1 [.boolean false] [.number 7] (by simp)
  · exact h.2.2.2.2.2.1 [.boolean false, .boolean false] (by simp)
  · exact h.2.2.2.2.2.2.1 [] (by simp)
  · exact h.2.2.2.2.2.2.2.1 (.number 3) (fun b hb => Value.noConfusion hb)
  · exact h.2.2.2.2.2.2.2.2 true
